import Mathlib

/-!
# The light sensor adapter of `sensors/LightSensor.cpp`

A shallow embedding of the class `LightSensor` (device probing in the two
constructors, the sysfs control channel `enable` / `setDelay`, the event decoder
`readEvents` and the unit converter `convertEvent`), followed by theorems about it.

Conventions of the embedding

* A C string is the list of its characters before the terminating NUL.
* A member function becomes a function from the object state (and the answers of
  the outside world it consults: whether a file opens, what the input reader
  delivers, what the clock says) to the new object state, the returned `int`
  and the trace of the outside calls it performed.
* `int` and `int64_t` values are integers; the one narrowing conversion of the
  file (`int delay_ms = ns / 1000000`) is written with an explicit wrap to 32 bits.
* `float` values are IEEE-754 binary32 bit patterns; the conversion `int -> float`
  is computed, the arithmetic of the ADC formula (`/`, `*`, `powf`) is taken from
  a parameter, because its results depend on the floating point unit and on libm.
* Declarations that live in headers outside this source file (`sensors.h`,
  `LightSensor.h`, `SensorBase.h`, `InputEventReader.h`) are parameters or are
  modelled from the specification, and say so.
-/

set_option linter.unusedVariables false

namespace LightSensor

/-! ## C strings and libc helpers -/

/-- The characters of a C string, terminator excluded. -/
abbrev CString := List Char

/-- The terminating NUL byte. -/
def NUL : Char := Char.ofNat 0

/-- Result of `strlen`. -/
def strlen (s : CString) : Nat := s.length

/-- Result of `strlcpy(&dst[off], src, size)`: the first `off` characters of `dst` stay,
at most `size - 1` characters of `src` follow; nothing is written when `size` is 0.
(Offsets past the end of `dst` do not arise in a constructed adapter, where `off` is
the `strlen` of an earlier content of `dst`.) -/
def strlcpy_at (dst : CString) (off : Nat) (src : CString) (size : Nat) : CString :=
  if size = 0 then dst else dst.take off ++ src.take (size - 1)

/-- Result of `strlcat(dst, src, size)`: `src` is appended as far as `size - 1`
characters in total allow; `dst` is left alone when it already fills the buffer. -/
def strlcat (dst : CString) (src : CString) (size : Nat) : CString :=
  if size ≤ dst.length then dst else dst ++ src.take (size - 1 - dst.length)

/-- Result of `snprintf(buf, size, fmt, arg)` for a format with a single `%s`, given
as the text before and the text after the `%s`. -/
def snprintf_s (size : Nat) (fmt : CString × CString) (arg : CString) : CString :=
  (fmt.1 ++ arg ++ fmt.2).take (size - 1)

/-- Result of `snprintf(buf, sizeof(buf), "%d", v)` for an `int` (at most 11 characters,
so the 80 byte buffer of `setDelay` never truncates it). -/
def snprintf_d (v : Int) : CString :=
  if v < 0 then '-' :: Nat.toDigits 10 v.natAbs else Nat.toDigits 10 v.natAbs

/-- Conversion of an integer to the 32-bit `int`: reduction modulo 2^32 into
[-2^31, 2^31). -/
def toInt32 (x : Int) : Int := (x + 2147483648) % 4294967296 - 2147483648

/-- Value of the errno constant `EINVAL` (errno.h). -/
def EINVAL : Int := 22

/-! ## binary32 values -/

/-- An IEEE-754 binary32 value by its three bit fields: sign bit, biased exponent
(8 bits) and fraction (23 bits). -/
structure F32 where
  sign : Bool
  exponent : Nat
  fraction : Nat
  deriving DecidableEq, Repr

/-- The value `+0.0f`, all bits zero (what `memset(..., 0, ...)` and `float lux = 0` give). -/
def F32.zero : F32 := ⟨false, 0, 0⟩

/-- The rational number a finite binary32 value denotes; `none` for infinities and NaN. -/
def F32.toRat? (x : F32) : Option ℚ :=
  if x.exponent ≥ 255 then none
  else
    let m : ℚ := if x.exponent = 0 then (x.fraction : ℚ) / 2 ^ 149
                 else ((8388608 + x.fraction : Nat) : ℚ) * 2 ^ (x.exponent - 1) / 2 ^ 149
    some (if x.sign then -m else m)

/-- Number of binary digits of `n`, with `fuel` bounding the number of halvings. -/
def bitLengthAux : Nat → Nat → Nat
  | 0, _ => 0
  | fuel + 1, n => if n = 0 then 0 else bitLengthAux fuel (n / 2) + 1

/-- Number of binary digits of `n` (0 for 0). -/
def bitLength (n : Nat) : Nat := bitLengthAux n n

/-- The conversion `(float) v` of an `int`: exact when `|v|` has at most 24 binary
digits, otherwise rounded to 24 digits, to nearest with ties to even. -/
def int_to_float (v : Int) : F32 :=
  let a := v.natAbs
  if a = 0 then F32.zero
  else
    let n := bitLength a
    if n ≤ 24 then ⟨decide (v < 0), 126 + n, a * 2 ^ (24 - n) - 8388608⟩
    else
      let sh := n - 24
      let q := a / 2 ^ sh
      let r := a % 2 ^ sh
      let half := 2 ^ (sh - 1)
      let q1 := if r > half ∨ (r = half ∧ q % 2 = 1) then q + 1 else q
      if q1 = 16777216 then ⟨decide (v < 0), 127 + n, 0⟩
      else ⟨decide (v < 0), 126 + n, q1 - 8388608⟩

/-- The float operations of the ADC formula whose results this development does not
compute: binary32 division and multiplication and libm's `powf`. -/
structure FloatUnit where
  fdiv : F32 → F32 → F32
  fmul : F32 → F32 → F32
  powf : F32 → F32 → F32

/-! ## Headers outside the source file -/

/-- Macros and sizes that `LightSensor.cpp` takes from headers that are not part of
the source file; every definition below is parametric in them. -/
structure Headers where
  /-- Value of `sizeof(input_sysfs_path)`. -/
  PATH_SIZE : Nat
  /-- Macro `SYSFS_CLASS` of sensors.h. -/
  SYSFS_CLASS : CString
  /-- Macro `SYSFS_POLL_DELAY` of sensors.h. -/
  SYSFS_POLL_DELAY : CString
  /-- Macro `SYSFS_MAXLEN` of sensors.h. -/
  SYSFS_MAXLEN : Nat
  /-- Macro `SENSORS_LIGHT_HANDLE` of sensors.h. -/
  SENSORS_LIGHT_HANDLE : Int
  /-- Constant `SENSOR_TYPE_LIGHT` of hardware/sensors.h. -/
  SENSOR_TYPE_LIGHT : Int
  /-- Value of `sizeof(sensors_event_t)`. -/
  SIZEOF_SENSORS_EVENT : Int

/-- Sample header values, used where a theorem is instantiated at a concrete input. -/
def sampleHeaders : Headers where
  PATH_SIZE := 4096
  SYSFS_CLASS := "/sys/class/sensors".toList
  SYSFS_POLL_DELAY := "poll_delay".toList
  SYSFS_MAXLEN := 20
  SENSORS_LIGHT_HANDLE := 4
  SENSOR_TYPE_LIGHT := 5
  SIZEOF_SENSORS_EVENT := 104

/-! ## Static tables of the source file -/

/-- Enumerator `GENERIC_LS` of `enum input_device_name`. -/
def GENERIC_LS : Int := 0
/-- Enumerator `CM36283_LS`. -/
def CM36283_LS : Int := 2
/-- Enumerator `STK3x1x_LS`. -/
def STK3x1x_LS : Int := 3
/-- Enumerator `SUPPORTED_LSENSOR_COUNT`. -/
def SUPPORTED_LSENSOR_COUNT : Int := 4

/-- Report type `TYPE_ADC`. -/
def TYPE_ADC : Int := 0
/-- Report type `TYPE_LUX`. -/
def TYPE_LUX : Int := 1

/-- The array read `table[i]`. An index outside the table is an out-of-bounds read in
C; `oob` stands for what it yields. The case does not arise in a constructed adapter:
`sensor_index` is only ever set to -1, to `GENERIC_LS` or to a loop index below
`SUPPORTED_LSENSOR_COUNT`, and the tables are read only when it is not negative. -/
def tableAt {α : Type} (table : List α) (i : Int) (oob : α) : α :=
  if i < 0 then oob else table.getD i.toNat oob

/-- Table `data_device_name`. -/
def data_device_name : List CString :=
  ["light".toList, "lightsensor-level".toList, "cm36283-ls".toList, "stk3x1x-ls".toList]

/-- Table `input_sysfs_path_list`; each template is the text before and after its `%s`. -/
def input_sysfs_path_list : List (CString × CString) :=
  [("/sys/class/input/".toList, "/device".toList),
   ("/sys/class/input/".toList, "/device/".toList),
   ("/sys/class/input/".toList, "/device/".toList),
   ("/sys/class/input/".toList, "/device/".toList)]

/-- Table `input_sysfs_enable_list`. -/
def input_sysfs_enable_list : List CString :=
  ["enable".toList, "enable".toList, "enable".toList, "enable".toList]

/-- Table `input_report_type`. -/
def input_report_type : List Int := [TYPE_LUX, TYPE_ADC, TYPE_LUX, TYPE_LUX]

/-! ## Kernel input events -/

/-- Event type `EV_SYN` (linux/input.h). -/
def EV_SYN : Int := 0
/-- Event type `EV_ABS` (linux/input.h). -/
def EV_ABS : Int := 3
/-- Event code `ABS_MISC` (linux/input.h). -/
def ABS_MISC : Int := 40
/-- Macro `EVENT_TYPE_LIGHT` of the source file. -/
def EVENT_TYPE_LIGHT : Int := ABS_MISC

/-- The `struct timeval` of an input event. -/
structure timeval where
  tv_sec : Int
  tv_usec : Int
  deriving DecidableEq, Repr

/-- The `struct input_event` of the kernel. -/
structure input_event where
  time : timeval
  type : Int
  code : Int
  value : Int
  deriving DecidableEq, Repr

/-- Modelled from the spec: `timevalToNano` of SensorBase.h, which is not part of the
source file; the spec calls it the event's hardware clock value converted to
nanoseconds. -/
def timevalToNano (t : timeval) : Int := t.tv_sec * 1000000000 + t.tv_usec * 1000

/-- Modelled from the spec: the `InputEventReader` of InputEventReader.cpp, which is not
part of the source file. The spec describes an internal buffer of bounded capacity
that a fill appends a batch of raw records to, that is decoded one record at a time,
and whose read cursor advances past each consumed record. `events` are the records
not yet consumed, oldest first. -/
structure InputEventReader where
  capacity : Nat
  events : List input_event
  deriving DecidableEq, Repr

/-- What the device hands to one `fill`: a negative error code, or a batch of records. -/
inductive FillOutcome where
  | error (code : Int)
  | batch (events : List input_event)
  deriving DecidableEq, Repr

/-- Modelled from the spec: `InputEventReader::fill`. A failing read propagates its
negative code and leaves the buffer alone; otherwise as much of the batch as the free
space holds is appended and its length returned. -/
def InputEventReader.fill (r : InputEventReader) (dev : FillOutcome) : InputEventReader × Int :=
  match dev with
  | .error code => (r, code)
  | .batch evs =>
    let taken := evs.take (r.capacity - r.events.length)
    ({ r with events := r.events ++ taken }, (taken.length : Int))

/-- Modelled from the spec: `InputEventReader::readEvent`, the oldest unconsumed record,
if there is one. -/
def InputEventReader.readEvent (r : InputEventReader) : Option input_event := r.events.head?

/-- Modelled from the spec: `InputEventReader::next`, which advances the read cursor
past the oldest record. -/
def InputEventReader.next (r : InputEventReader) : InputEventReader :=
  { r with events := r.events.tail }

/-! ## The adapter state -/

/-- The fields of `sensors_event_t` this file touches; `light` is `data[0]`, the only
slot of `data` written after the constructor's `memset`. -/
structure sensors_event_t where
  version : Int
  sensor : Int
  type : Int
  timestamp : Int
  light : F32
  deriving DecidableEq, Repr

/-- The object state of a `LightSensor`: the members inherited from `SensorBase` that
the file uses, then its own. -/
structure State where
  data_name : Option CString
  input_name : CString
  data_fd : Int
  mEnabled : Int
  mInputReader : InputEventReader
  mPendingEvent : sensors_event_t
  mHasPendingEvent : Bool
  input_sysfs_path : CString
  input_sysfs_path_len : Nat
  sensor_index : Int
  deriving DecidableEq, Repr

/-- A call to the outside world performed by a member function. -/
inductive Action where
  | sys_open (path : CString) (ok : Bool)
  | sys_write (path : CString) (bytes : List Char)
  | sys_close (path : CString)
  | open_input (name : CString)
  | reader_fill (fd : Int)
  | get_timestamp
  deriving DecidableEq, Repr

/-- Outcome of a control call: new object state, returned `int`, outside calls made. -/
structure Outcome where
  self : State
  ret : Int
  trace : List Action
  deriving DecidableEq, Repr

/-! ## Control channel -/

/-- Content of `input_sysfs_path` after the `strlcpy` of `enable`: the path of the
enable control file. -/
def enable_path (h : Headers) (s : State) : CString :=
  strlcpy_at s.input_sysfs_path s.input_sysfs_path_len
    (tableAt input_sysfs_enable_list s.sensor_index [])
    (h.PATH_SIZE - s.input_sysfs_path_len)

/-- Content of `input_sysfs_path` after the `strlcpy` of `setDelay`: the path of the
polling delay control file. -/
def poll_delay_path (h : Headers) (s : State) : CString :=
  strlcpy_at s.input_sysfs_path s.input_sysfs_path_len h.SYSFS_POLL_DELAY h.SYSFS_MAXLEN

/-- The member function `LightSensor::enable(handle, en)`; `fopen path` tells whether
`open(path, O_RDWR)` yields a descriptor. -/
def enable (h : Headers) (fopen : CString → Bool) (s : State) (handle : Int) (en : Int) :
    Outcome :=
  let flags : Int := if en ≠ 0 then 1 else 0
  if flags ≠ s.mEnabled then
    if s.sensor_index ≥ 0 then
      let path := enable_path h s
      let s1 := { s with input_sysfs_path := path }
      if fopen path then
        let buf : List Char := [if flags ≠ 0 then '1' else '0', NUL]
        ⟨{ s1 with mEnabled := flags }, 0,
          [.sys_open path true, .sys_write path buf, .sys_close path]⟩
      else
        ⟨s1, -1, [.sys_open path false]⟩
    else
      ⟨s, -1, []⟩
  else
    ⟨s, 0, []⟩

/-- The member function `LightSensor::setDelay(handle, ns)`. -/
def setDelay (h : Headers) (fopen : CString → Bool) (s : State) (handle : Int) (ns : Int) :
    Outcome :=
  let delay_ms : Int := toInt32 (Int.tdiv ns 1000000)
  let path := poll_delay_path h s
  let s1 := { s with input_sysfs_path := path }
  if fopen path then
    let buf := snprintf_d delay_ms
    ⟨s1, 0, [.sys_open path true, .sys_write path (buf ++ [NUL]), .sys_close path]⟩
  else
    ⟨s1, -1, [.sys_open path false]⟩

/-- The member function `LightSensor::hasPendingEvents`. -/
def hasPendingEvents (s : State) : Bool := s.mHasPendingEvent

/-! ## Unit converter -/

/-- The member function `LightSensor::convertEvent(value)`. -/
def convertEvent (fp : FloatUnit) (s : State) (value : Int) : F32 :=
  let lux : F32 := F32.zero
  if s.sensor_index ≥ 0 then
    if tableAt input_report_type s.sensor_index (-1) = TYPE_ADC then
      fp.fmul
        (fp.powf (int_to_float 10)
          (fp.fmul (int_to_float value)
            (fp.fdiv (fp.fdiv (int_to_float 330) (int_to_float 4095)) (int_to_float 47))))
        (int_to_float 4)
    else if tableAt input_report_type s.sensor_index (-1) = TYPE_LUX then
      int_to_float value
    else
      F32.zero
  else
    lux

/-! ## Event reader -/

/-- Outcome of `readEvents`: new object state, returned `int`, the records written to
the caller's buffer `data` (slot 0 first) and the outside calls made. -/
structure ReadOutcome where
  self : State
  ret : Int
  data : List sensors_event_t
  trace : List Action
  deriving DecidableEq, Repr

/-- The `while (count && mInputReader.readEvent(&event))` loop of `readEvents`. The first
argument is the content of the reader's buffer (`s.mInputReader.events`), on which the
loop recurses: `readEvent` yields its head and `next` drops it. The result is the state
after the loop, the records written through `data` and `numEventReceived`. -/
def readEvents_loop (fp : FloatUnit) :
    List input_event → State → Int → List sensors_event_t → Int →
      State × List sensors_event_t × Int
  | [], s, _, data, numEventReceived => (s, data, numEventReceived)
  | event :: rest, s, count, data, numEventReceived =>
    if count = 0 then (s, data, numEventReceived)
    else
      let next (t : State) : State := { t with mInputReader := t.mInputReader.next }
      if event.type = EV_ABS then
        if event.code = EVENT_TYPE_LIGHT then
          let s1 := { s with mPendingEvent :=
            { s.mPendingEvent with light := convertEvent fp s event.value } }
          readEvents_loop fp rest (next s1) count data numEventReceived
        else
          readEvents_loop fp rest (next s) count data numEventReceived
      else if event.type = EV_SYN then
        let s1 := { s with mPendingEvent :=
          { s.mPendingEvent with timestamp := timevalToNano event.time } }
        if s1.mEnabled ≠ 0 then
          readEvents_loop fp rest (next s1) (count - 1) (data ++ [s1.mPendingEvent])
            (numEventReceived + 1)
        else
          readEvents_loop fp rest (next s1) count data numEventReceived
      else
        readEvents_loop fp rest (next s) count data numEventReceived

/-- The part of `readEvents` after the pending-measurement test: fill the reader from
`data_fd`, give up on a negative result, otherwise run the decode loop. -/
def readEvents_fill (fp : FloatUnit) (dev : FillOutcome) (s : State) (count : Int) :
    ReadOutcome :=
  let filled := s.mInputReader.fill dev
  let s1 := { s with mInputReader := filled.1 }
  let n := filled.2
  if n < 0 then ⟨s1, n, [], [.reader_fill s.data_fd]⟩
  else
    let r := readEvents_loop fp s1.mInputReader.events s1 count [] 0
    ⟨r.1, r.2.2, r.2.1, [.reader_fill s.data_fd]⟩

/-- The member function `LightSensor::readEvents(data, count)`; `now` is what
`getTimestamp()` answers and `dev` what the device hands to `fill`. -/
def readEvents (fp : FloatUnit) (now : Int) (dev : FillOutcome) (s : State) (count : Int) :
    ReadOutcome :=
  if count < 1 then ⟨s, -EINVAL, [], []⟩
  else if s.mHasPendingEvent then
    let s1 := { s with mHasPendingEvent := false }
    let s2 := { s1 with mPendingEvent := { s1.mPendingEvent with timestamp := now } }
    ⟨s2, if s2.mEnabled ≠ 0 then 1 else 0, [s2.mPendingEvent], [.get_timestamp]⟩
  else
    readEvents_fill fp dev s count

/-! ## Constructors -/

/-- What `SensorBase::openInput(name)` (not part of the source file) answers: the
descriptor it returns and, when it found the device, the kernel instance name it
stores in `input_name`. -/
abbrev OpenInput := CString → Int × Option CString

/-- The member initialisers and the first four statements shared by both constructor
bodies; `mem` is the object as the `SensorBase` constructor left it. -/
def init_members (h : Headers) (mem : State) (index : Int) : State :=
  { mem with
    mEnabled := 0
    mInputReader := ⟨4, []⟩
    mHasPendingEvent := false
    sensor_index := index
    mPendingEvent :=
      { mem.mPendingEvent with
        version := h.SIZEOF_SENSORS_EVENT
        sensor := h.SENSORS_LIGHT_HANDLE
        type := h.SENSOR_TYPE_LIGHT
        light := F32.zero } }

/-- The probing loop `for (i = 0; i < SUPPORTED_LSENSOR_COUNT; i++)` of the no-argument
constructor, with the number of iterations left as first argument. Yields the state,
the final value of `i` and the calls made. -/
def probe_loop (openInput : OpenInput) : Nat → Int → State → State × Int × List Action
  | 0, i, s => (s, i, [])
  | left + 1, i, s =>
    let name := tableAt data_device_name i []
    let r := openInput name
    let s1 := { s with data_name := some name, data_fd := r.1,
                       input_name := r.2.getD s.input_name }
    if r.1 > 0 then ({ s1 with sensor_index := i }, i, [.open_input name])
    else
      let rec_ := probe_loop openInput left (i + 1) s1
      (rec_.1, rec_.2.1, .open_input name :: rec_.2.2)

/-- The constructor `LightSensor::LightSensor()`. The returned `int` is that of its
`enable(0, 1)` call, 0 when the call is not made. -/
def construct (h : Headers) (openInput : OpenInput) (fopen : CString → Bool) (mem : State) :
    Outcome :=
  let s0 := init_members h mem (-1)
  let probed := probe_loop openInput SUPPORTED_LSENSOR_COUNT.toNat 0 s0
  let s1 := probed.1
  let i := probed.2.1
  if s1.data_fd > 0 then
    let path := snprintf_s h.PATH_SIZE (tableAt input_sysfs_path_list i ([], [])) s1.input_name
    let s2 := { s1 with input_sysfs_path := path, input_sysfs_path_len := strlen path }
    let r := enable h fopen s2 0 1
    ⟨r.self, r.ret, probed.2.2 ++ r.trace⟩
  else
    ⟨s1, 0, probed.2.2⟩

/-- The constructor `LightSensor::LightSensor(char *name)`; `mem` is the object as
`SensorBase(NULL, data_device_name[GENERIC_LS])` left it, `data_fd` included. -/
def construct_named (h : Headers) (fopen : CString → Bool) (mem : State) (name : CString) :
    Outcome :=
  let s0 := init_members h mem GENERIC_LS
  if s0.data_fd > 0 then
    let p1 := strlcpy_at s0.input_sysfs_path 0 h.SYSFS_CLASS h.PATH_SIZE
    let p2 := strlcat p1 "/".toList h.PATH_SIZE
    let p3 := strlcat p2 name h.PATH_SIZE
    let p4 := strlcat p3 "/".toList h.PATH_SIZE
    let s1 := { s0 with input_sysfs_path := p4, input_sysfs_path_len := strlen p4 }
    enable h fopen s1 0 1
  else
    ⟨s0, 0, []⟩

/-- The state on which the no-argument constructor calls `enable(0, 1)` when the
probing loop ended with `data_fd > 0`. -/
def construct_probed (h : Headers) (openInput : OpenInput) (mem : State) : State :=
  let probed := probe_loop openInput SUPPORTED_LSENSOR_COUNT.toNat 0 (init_members h mem (-1))
  let path := snprintf_s h.PATH_SIZE (tableAt input_sysfs_path_list probed.2.1 ([], []))
    probed.1.input_name
  { probed.1 with input_sysfs_path := path, input_sysfs_path_len := strlen path }

/-! ## Call sequences -/

/-- One call of a public member function, with the answers of the outside world it
is going to receive. -/
inductive Call where
  | enable (fopen : CString → Bool) (handle : Int) (en : Int)
  | setDelay (fopen : CString → Bool) (handle : Int) (ns : Int)
  | readEvents (now : Int) (dev : FillOutcome) (count : Int)
  | convertEvent (value : Int)

/-- The object state after a call. -/
def Call.run (h : Headers) (fp : FloatUnit) (s : State) : Call → State
  | .enable fopen handle en => (LightSensor.enable h fopen s handle en).self
  | .setDelay fopen handle ns => (LightSensor.setDelay h fopen s handle ns).self
  | .readEvents now dev count => (LightSensor.readEvents fp now dev s count).self
  | .convertEvent _ => s

/-- The states an adapter can be in: those either constructor produces, closed under
the calls of the public member functions. -/
inductive Reachable (h : Headers) (fp : FloatUnit) : State → Prop where
  | construct (openInput : OpenInput) (fopen : CString → Bool) (mem : State) :
      Reachable h fp (LightSensor.construct h openInput fopen mem).self
  | construct_named (fopen : CString → Bool) (mem : State) (name : CString) :
      Reachable h fp (LightSensor.construct_named h fopen mem name).self
  | call (s : State) (c : Call) : Reachable h fp s → Reachable h fp (c.run h fp s)

/-! ## Sample inputs -/

/-- An object whose storage is all zero bytes. -/
def blankMemory : State where
  data_name := none
  input_name := []
  data_fd := 0
  mEnabled := 0
  mInputReader := ⟨0, []⟩
  mPendingEvent := ⟨0, 0, 0, 0, F32.zero⟩
  mHasPendingEvent := false
  input_sysfs_path := []
  input_sysfs_path_len := 0
  sensor_index := 0

/-- A system without any of the supported input devices. -/
def noDevice : OpenInput := fun _ => (-1, none)

/-- A system whose only light sensor is the generic one, found as `event1` and opened
on descriptor 3. -/
def genericDevice : OpenInput := fun name =>
  if name = "light".toList then (3, some "event1".toList) else (-1, none)

/-- A system whose light sensor is the ADC variant, found as `event2` on descriptor 5. -/
def adcDevice : OpenInput := fun name =>
  if name = "lightsensor-level".toList then (5, some "event2".toList) else (-1, none)

/-- Every control file opens. -/
def allOpen : CString → Bool := fun _ => true

/-- No control file opens. -/
def noneOpen : CString → Bool := fun _ => false

/-- A float unit that answers `+0.0f` to everything; the sample inputs below never
reach the ADC formula. -/
def idleFloatUnit : FloatUnit := ⟨fun _ _ => F32.zero, fun _ _ => F32.zero, fun _ _ => F32.zero⟩

/-- The adapter the no-argument constructor builds when no device is found. -/
def unresolvedAdapter : State := (construct sampleHeaders noDevice allOpen blankMemory).self

/-- The adapter the no-argument constructor builds on the generic device. -/
def genericAdapter : State := (construct sampleHeaders genericDevice allOpen blankMemory).self

/-- The number of `write` calls in a trace. -/
def writeCount (t : List Action) : Nat :=
  t.countP fun a => match a with
    | .sys_write _ _ => true
    | _ => false

/-- The number of `open` calls in a trace. -/
def openCount (t : List Action) : Nat :=
  t.countP fun a => match a with
    | .sys_open _ _ => true
    | _ => false

/-- A disabled adapter on the generic device that holds a pending measurement. -/
def pendingDisabledAdapter : State :=
  { genericAdapter with mEnabled := 0, mHasPendingEvent := true }

/-! ## The decoded batch, as the specification words it -/

/-- Whether a record is a synchronisation record (`EV_SYN`). -/
def isSync (e : input_event) : Bool := decide (e.type = EV_SYN)

/-- Whether a record carries a new light value (`EV_ABS` with code `ABS_MISC`). -/
def isLightValue (e : input_event) : Bool :=
  decide (e.type = EV_ABS ∧ e.code = EVENT_TYPE_LIGHT)

/-- Number of synchronisation records in a batch. -/
def syncCount (evs : List input_event) : Nat := evs.countP isSync

/-- The synchronisation records of a batch, each with its position in the batch. -/
def syncs (evs : List input_event) : List (Nat × input_event) :=
  evs.enum.filter fun p => isSync p.2

/-- The reading in force once the records `before` have gone by: the conversion of the
most recent light value among them, or the reading `held` before them if there is none. -/
def reading_after (conv : Int → F32) (held : F32) (before : List input_event) : F32 :=
  match before.reverse.find? isLightValue with
  | some e => conv e.value
  | none => held

/-- The measurement the spec expects for the synchronisation record `p.2` at position
`p.1` of the batch `evs`, when `base` was the pending measurement before the batch. -/
def expected_measurement (conv : Int → F32) (base : sensors_event_t)
    (evs : List input_event) (p : Nat × input_event) : sensors_event_t :=
  { base with
    light := reading_after conv base.light (evs.take p.1)
    timestamp := timevalToNano p.2.time }

/-- The measurements the spec expects from a batch when the output has room for `n`. -/
def expected_data (conv : Int → F32) (base : sensors_event_t) (evs : List input_event)
    (n : Nat) : List sensors_event_t :=
  ((syncs evs).take n).map (expected_measurement conv base evs)

/-- The pending measurement after the decode loop has handled one record, emission
aside. -/
def step_base (conv : Int → F32) (base : sensors_event_t) (e : input_event) :
    sensors_event_t :=
  if e.type = EV_ABS then
    if e.code = EVENT_TYPE_LIGHT then { base with light := conv e.value } else base
  else if e.type = EV_SYN then { base with timestamp := timevalToNano e.time }
  else base

/-- The records held by the reader once a fill has taken what it can of the records
`offered` by the device: those still buffered from earlier reads, then the batch the
fill delivers. -/
def buffered_after_fill (s : State) (offered : List input_event) : List input_event :=
  (s.mInputReader.fill (.batch offered)).1.events

/-- Two records as the kernel sends them for one sample: the light value 100, then the
synchronisation record. -/
def sampleBatch : List input_event :=
  [⟨⟨10, 20⟩, EV_ABS, ABS_MISC, 100⟩, ⟨⟨10, 30⟩, EV_SYN, 0, 0⟩]

/-- Two samples as the kernel sends them: light value 100 and its synchronisation
record, then light value 200 and its synchronisation record. -/
def twoSamples : List input_event :=
  [⟨⟨10, 20⟩, EV_ABS, ABS_MISC, 100⟩, ⟨⟨10, 30⟩, EV_SYN, 0, 0⟩,
   ⟨⟨11, 20⟩, EV_ABS, ABS_MISC, 200⟩, ⟨⟨11, 30⟩, EV_SYN, 0, 0⟩]

/-- The enabled generic adapter after `readEvents(data, 1)` on `twoSamples`: the output
was full after the first sample, so the second sample is still in the reader. -/
def leftoverAdapter : State :=
  (readEvents idleFloatUnit 0 (.batch twoSamples) genericAdapter 1).self

theorem snprintf_d_eq_toString (v : Int) : snprintf_d v = (toString v).toList := by
  unfold snprintf_d
  cases v with
  | ofNat n =>
    have h : ¬ ((Int.ofNat n) < 0) := by simp
    rw [if_neg h]
    simp [toString, Int.repr, Nat.repr, instToStringInt, List.asString]
  | negSucc n =>
    have h : (Int.negSucc n) < 0 := Int.negSucc_lt_zero n
    rw [if_pos h]
    simp [toString, Int.repr, Nat.repr, instToStringInt, List.asString]

theorem toInt32_of_range (x : Int) (h1 : -2147483648 ≤ x) (h2 : x ≤ 2147483647) :
    toInt32 x = x := by
  unfold toInt32
  omega

theorem enable_flag_cases (en : Int) :
    (if en ≠ 0 then (1 : Int) else 0) = 0 ∨ (if en ≠ 0 then (1 : Int) else 0) = 1 := by
  by_cases h : en = 0 <;> simp [h]

theorem enable_ret_zero_flag (h : Headers) (fopen : CString → Bool) (s : State)
    (handle en : Int) (hok : (enable h fopen s handle en).ret = 0) :
    (enable h fopen s handle en).self.mEnabled = (if en ≠ 0 then (1 : Int) else 0) := by
  unfold enable at hok ⊢
  by_cases hf : (if en ≠ 0 then (1 : Int) else 0) ≠ s.mEnabled
  · by_cases hi : s.sensor_index ≥ 0
    · by_cases ho : fopen (enable_path h s) = true
      · simp only [if_pos hf, if_pos hi, ho, if_true]
      · simp only [if_pos hf, if_pos hi, ho] at hok
        simp at hok
    · simp only [if_pos hf, if_neg hi] at hok
      simp at hok
  · simp only [if_neg hf]
    push_neg at hf
    exact hf.symm

theorem enable_same_flag (h : Headers) (fopen : CString → Bool) (s : State)
    (handle en : Int) (hf : (if en ≠ 0 then (1 : Int) else 0) = s.mEnabled) :
    enable h fopen s handle en = ⟨s, 0, []⟩ := by
  have hnn : ¬ ((if en ≠ 0 then (1 : Int) else 0) ≠ s.mEnabled) := fun hc => hc hf
  simp only [enable, if_neg hnn]

theorem enable_writes_of_success (h : Headers) (fopen : CString → Bool) (s : State)
    (handle en : Int) (hdis : s.mEnabled = 0) (hen : en ≠ 0)
    (hok : (enable h fopen s handle en).ret = 0) :
    writeCount (enable h fopen s handle en).trace = 1 ∧
      openCount (enable h fopen s handle en).trace = 1 := by
  unfold enable at hok ⊢
  have hf : (if en ≠ 0 then (1 : Int) else 0) ≠ s.mEnabled := by
    rw [hdis]; simp [hen]
  by_cases hi : s.sensor_index ≥ 0
  · by_cases ho : fopen (enable_path h s) = true
    · simp only [if_pos hf, if_pos hi, ho, if_true]
      simp [writeCount, openCount]
    · simp only [if_pos hf, if_pos hi, ho] at hok
      simp at hok
  · simp only [if_pos hf, if_neg hi] at hok
    simp at hok

theorem probe_loop_trace (openInput : OpenInput) (left : Nat) (i : Int) (s : State) :
    ∃ names : List CString,
      (probe_loop openInput left i s).2.2 = names.map Action.open_input := by
  induction left generalizing i s with
  | zero => exact ⟨[], rfl⟩
  | succ k ih =>
    simp only [probe_loop]
    split
    · exact ⟨[tableAt data_device_name i []], rfl⟩
    · obtain ⟨names, hn⟩ := ih (i + 1)
        { s with data_name := some (tableAt data_device_name i []),
                 data_fd := (openInput (tableAt data_device_name i [])).1,
                 input_name := (openInput (tableAt data_device_name i [])).2.getD s.input_name }
      exact ⟨tableAt data_device_name i [] :: names, by simp [hn]⟩

theorem probe_loop_keeps (openInput : OpenInput) (left : Nat) (i : Int) (s : State) :
    (probe_loop openInput left i s).1.mEnabled = s.mEnabled ∧
      (probe_loop openInput left i s).1.mHasPendingEvent = s.mHasPendingEvent := by
  induction left generalizing i s with
  | zero => exact ⟨rfl, rfl⟩
  | succ k ih =>
    simp only [probe_loop]
    split
    · exact ⟨rfl, rfl⟩
    · exact ih _ _

theorem probe_loop_found (openInput : OpenInput) (left : Nat) (i : Int) (s : State)
    (hdev : ∃ k : Nat, k < left ∧ 0 < (openInput (tableAt data_device_name (i + k) [])).1) :
    0 < (probe_loop openInput left i s).1.data_fd ∧
      (probe_loop openInput left i s).1.sensor_index = (probe_loop openInput left i s).2.1 ∧
      i ≤ (probe_loop openInput left i s).2.1 ∧
      (probe_loop openInput left i s).2.1 < i + left := by
  induction left generalizing i s with
  | zero =>
    obtain ⟨k, hk, _⟩ := hdev
    omega
  | succ n ih =>
    simp only [probe_loop]
    by_cases h0 : (openInput (tableAt data_device_name i [])).1 > 0
    · rw [if_pos h0]
      refine ⟨h0, rfl, le_refl _, ?_⟩
      show i < i + ((n + 1 : Nat) : Int)
      omega
    · rw [if_neg h0]
      have hrest : ∃ k : Nat, k < n ∧
          0 < (openInput (tableAt data_device_name (i + 1 + k) [])).1 := by
        obtain ⟨k, hk, hpos⟩ := hdev
        cases k with
        | zero => exact absurd (by simpa using hpos) h0
        | succ j =>
          refine ⟨j, by omega, ?_⟩
          have : i + 1 + (j : Int) = i + ((j + 1 : Nat) : Int) := by push_cast; ring
          rw [this]; exact hpos
      obtain ⟨h1, h2, h3, h4⟩ := ih (i + 1)
        { s with data_name := some (tableAt data_device_name i []),
                 data_fd := (openInput (tableAt data_device_name i [])).1,
                 input_name := (openInput (tableAt data_device_name i [])).2.getD s.input_name }
        hrest
      dsimp only
      refine ⟨h1, h2, by omega, ?_⟩
      have : i + ((n + 1 : Nat) : Int) = i + 1 + (n : Int) := by push_cast; ring
      rw [this]; exact h4

theorem data_device_name_index (name : CString) (hmem : name ∈ data_device_name) :
    ∃ k : Nat, k < 4 ∧ tableAt data_device_name ((0 : Int) + k) [] = name := by
  simp only [data_device_name, List.mem_cons, List.mem_singleton, List.not_mem_nil,
    or_false] at hmem
  rcases hmem with h | h | h | h
  · exact ⟨0, by decide, by rw [h]; decide⟩
  · exact ⟨1, by decide, by rw [h]; decide⟩
  · exact ⟨2, by decide, by rw [h]; decide⟩
  · exact ⟨3, by decide, by rw [h]; decide⟩

theorem enable_on_from_disabled (h : Headers) (fopen : CString → Bool) (s : State)
    (handle : Int) (hdis : s.mEnabled = 0) (hidx : 0 ≤ s.sensor_index) :
    (fopen (enable_path h s) = true →
      enable h fopen s handle 1 =
        ⟨{ s with input_sysfs_path := enable_path h s, mEnabled := 1 }, 0,
         [.sys_open (enable_path h s) true, .sys_write (enable_path h s) ['1', NUL],
          .sys_close (enable_path h s)]⟩) ∧
    (fopen (enable_path h s) = false →
      enable h fopen s handle 1 =
        ⟨{ s with input_sysfs_path := enable_path h s }, -1,
         [.sys_open (enable_path h s) false]⟩) := by
  have hi : s.sensor_index ≥ 0 := hidx
  constructor
  · intro ho
    simp [enable, hdis, hi, ho]
  · intro ho
    simp [enable, hdis, hi, ho]

theorem construct_of_found (h : Headers) (openInput : OpenInput) (fopen : CString → Bool)
    (mem : State) (hdev : ∃ name ∈ data_device_name, 0 < (openInput name).1) :
    (construct_probed h openInput mem).mEnabled = 0 ∧
    0 ≤ (construct_probed h openInput mem).sensor_index ∧
    (construct_probed h openInput mem).sensor_index < SUPPORTED_LSENSOR_COUNT ∧
    (construct_probed h openInput mem).mHasPendingEvent = false ∧
    ∃ names : List CString,
      construct h openInput fopen mem =
        ⟨(enable h fopen (construct_probed h openInput mem) 0 1).self,
         (enable h fopen (construct_probed h openInput mem) 0 1).ret,
         names.map Action.open_input ++
           (enable h fopen (construct_probed h openInput mem) 0 1).trace⟩ := by
  have hk : ∃ k : Nat, k < 4 ∧
      0 < (openInput (tableAt data_device_name ((0 : Int) + k) [])).1 := by
    obtain ⟨name, hmem, hpos⟩ := hdev
    obtain ⟨k, hk, hname⟩ := data_device_name_index name hmem
    exact ⟨k, hk, by rw [hname]; exact hpos⟩
  have h4 : SUPPORTED_LSENSOR_COUNT.toNat = 4 := by decide
  obtain ⟨hfd, hidx, hlo, hhi⟩ := probe_loop_found openInput 4 0 (init_members h mem (-1)) hk
  obtain ⟨hen, hpend⟩ := probe_loop_keeps openInput 4 0 (init_members h mem (-1))
  obtain ⟨names, hnames⟩ := probe_loop_trace openInput 4 0 (init_members h mem (-1))
  refine ⟨?_, ?_, ?_, ?_, names, ?_⟩
  · simp only [construct_probed, h4]
    exact hen
  · simp only [construct_probed, h4]
    rw [hidx]; exact hlo
  · simp only [construct_probed, h4]
    rw [hidx]
    have : (0 : Int) + ((4 : Nat) : Int) = SUPPORTED_LSENSOR_COUNT := by decide
    rw [← this]; exact hhi
  · simp only [construct_probed, h4]
    exact hpend
  · have hfd2 : (probe_loop openInput 4 0 (init_members h mem (-1))).1.data_fd > 0 := hfd
    simp only [construct, construct_probed, h4, if_pos hfd2, hnames]

/-! ## C1: `enable` without a resolved variant -/

/-- C1, as stated, fails: the adapter built by the no-argument constructor when no
device is found has `sensor_index < 0` and `mEnabled = 0`, and `enable(0, 0)` on it
returns 0, not -1. -/
theorem enable_unresolved_same_flag_returns_zero :
    unresolvedAdapter.sensor_index < 0 ∧ unresolvedAdapter.mEnabled = 0 ∧
      (enable sampleHeaders allOpen unresolvedAdapter 0 0).ret = 0 := by
  decide

/-- C1, amended: with no resolved variant (`sensor_index < 0`), `enable(handle, en)`
returns -1, makes no outside call and leaves the state as it is whenever the flag of
`en` differs from `mEnabled`; when the flag equals `mEnabled` it returns 0, again
without any outside call or state change. -/
theorem enable_unresolved (h : Headers) (fopen : CString → Bool) (s : State)
    (handle en : Int) (hidx : s.sensor_index < 0) :
    ((if en ≠ 0 then (1 : Int) else 0) ≠ s.mEnabled →
        enable h fopen s handle en = ⟨s, -1, []⟩) ∧
    ((if en ≠ 0 then (1 : Int) else 0) = s.mEnabled →
        enable h fopen s handle en = ⟨s, 0, []⟩) := by
  have hneg : ¬ (s.sensor_index ≥ 0) := by omega
  constructor
  · intro hne
    simp only [enable, if_pos hne, if_neg hneg]
  · intro heq
    have hnn : ¬ ((if en ≠ 0 then (1 : Int) else 0) ≠ s.mEnabled) := by
      intro hc; exact hc heq
    simp only [enable, if_neg hnn]

/-- Instance of `enable_unresolved` at the adapter that found no device: the request
to switch on fails with -1, the request to switch off returns 0. -/
theorem enable_unresolved_witness :
    unresolvedAdapter.sensor_index < 0 ∧
      enable sampleHeaders allOpen unresolvedAdapter 0 1 = ⟨unresolvedAdapter, -1, []⟩ ∧
      enable sampleHeaders allOpen unresolvedAdapter 0 0 = ⟨unresolvedAdapter, 0, []⟩ :=
  ⟨by decide,
   (enable_unresolved sampleHeaders allOpen unresolvedAdapter 0 1 (by decide)).1 (by decide),
   (enable_unresolved sampleHeaders allOpen unresolvedAdapter 0 0 (by decide)).2 (by decide)⟩

/-! ## C2: `readEvents` with a pending measurement -/

/-- C2, as stated, fails: on a disabled adapter with a pending measurement,
`readEvents(data, 1)` returns 0, not 1. -/
theorem readEvents_pending_disabled_returns_zero :
    pendingDisabledAdapter.mHasPendingEvent = true ∧ pendingDisabledAdapter.mEnabled = 0 ∧
      (readEvents idleFloatUnit 77 (.batch []) pendingDisabledAdapter 1).ret = 0 := by
  decide

/-- C2, amended: with a pending measurement and `count >= 1`, `readEvents` clears the
pending flag, stamps the pending measurement with the current time and copies it to
the first output slot, does not fill or touch the input reader (its only outside call
is `getTimestamp`), changes nothing else in the object, and returns 1 when the adapter
is enabled and 0 when it is disabled. -/
theorem readEvents_pending (fp : FloatUnit) (now : Int) (dev : FillOutcome) (s : State)
    (count : Int) (hpending : s.mHasPendingEvent = true) (hcount : 1 ≤ count) :
    readEvents fp now dev s count =
      ⟨{ s with mHasPendingEvent := false,
                mPendingEvent := { s.mPendingEvent with timestamp := now } },
       if s.mEnabled ≠ 0 then 1 else 0,
       [{ s.mPendingEvent with timestamp := now }],
       [.get_timestamp]⟩ := by
  have hc : ¬ (count < 1) := by omega
  simp only [readEvents, if_neg hc, hpending, if_true]

/-- Instance of `readEvents_pending` at a disabled adapter holding a pending
measurement, read at time 77 with room for one record. -/
theorem readEvents_pending_witness :
    readEvents idleFloatUnit 77 (.batch []) pendingDisabledAdapter 1 =
      ⟨{ pendingDisabledAdapter with
          mHasPendingEvent := false,
          mPendingEvent := { pendingDisabledAdapter.mPendingEvent with timestamp := 77 } },
       if pendingDisabledAdapter.mEnabled ≠ 0 then 1 else 0,
       [{ pendingDisabledAdapter.mPendingEvent with timestamp := 77 }],
       [.get_timestamp]⟩ :=
  readEvents_pending idleFloatUnit 77 (.batch []) pendingDisabledAdapter 1 (by decide)
    (by decide)

/-! ## C7: `readEvents` with no room in the output -/

/-- C7: for `count < 1`, `readEvents` returns `-EINVAL` (-22), writes no record, makes no
outside call (the reader is not filled, no event is consumed) and leaves the whole
object state, pending flag, pending measurement, enabled flag and event buffer
included, as it was. -/
theorem readEvents_count_below_one (fp : FloatUnit) (now : Int) (dev : FillOutcome)
    (s : State) (count : Int) (hcount : count < 1) :
    readEvents fp now dev s count = ⟨s, -EINVAL, [], []⟩ ∧
      (readEvents fp now dev s count).ret = -22 ∧
      (readEvents fp now dev s count).self.mHasPendingEvent = s.mHasPendingEvent ∧
      (readEvents fp now dev s count).self.mPendingEvent = s.mPendingEvent ∧
      (readEvents fp now dev s count).self.mEnabled = s.mEnabled ∧
      (readEvents fp now dev s count).self.mInputReader = s.mInputReader := by
  have h : readEvents fp now dev s count = ⟨s, -EINVAL, [], []⟩ := by
    simp only [readEvents, if_pos hcount]
  rw [h]
  exact ⟨rfl, rfl, rfl, rfl, rfl, rfl⟩

/-- Instance of `readEvents_count_below_one` at `count = 0` on a pending adapter with
records on offer. -/
theorem readEvents_count_below_one_witness :
    readEvents idleFloatUnit 77 (.batch [⟨⟨1, 2⟩, EV_SYN, 0, 0⟩]) pendingDisabledAdapter 0 =
      ⟨pendingDisabledAdapter, -EINVAL, [], []⟩ :=
  (readEvents_count_below_one idleFloatUnit 77 (.batch [⟨⟨1, 2⟩, EV_SYN, 0, 0⟩])
    pendingDisabledAdapter 0 (by decide)).1

/-! ## C5: repeating an `enable` request -/

/-- C5: on an adapter with a resolved variant, when `enable(handle, en)` has returned 0,
an immediately following `enable(handle2, en2)` with `en2` of the same truth value
returns 0, makes no outside call (no open, no write) and leaves the whole object
state unchanged; so two consecutive requests to switch on, the first one successful
and starting from the disabled state, open and write the control file exactly once. -/
theorem enable_twice (h : Headers) (fopen fopen2 : CString → Bool) (s : State)
    (handle handle2 en en2 : Int)
    (hres : 0 ≤ s.sensor_index ∧ s.sensor_index < SUPPORTED_LSENSOR_COUNT)
    (hsame : en ≠ 0 ↔ en2 ≠ 0)
    (hok : (enable h fopen s handle en).ret = 0) :
    enable h fopen2 (enable h fopen s handle en).self handle2 en2 =
        ⟨(enable h fopen s handle en).self, 0, []⟩ ∧
      (s.mEnabled = 0 → en ≠ 0 →
        writeCount ((enable h fopen s handle en).trace ++
          (enable h fopen2 (enable h fopen s handle en).self handle2 en2).trace) = 1 ∧
        openCount ((enable h fopen s handle en).trace ++
          (enable h fopen2 (enable h fopen s handle en).self handle2 en2).trace) = 1) := by
  have hflag : (if en2 ≠ 0 then (1 : Int) else 0) =
      (enable h fopen s handle en).self.mEnabled := by
    rw [enable_ret_zero_flag h fopen s handle en hok]
    by_cases he : en ≠ 0
    · rw [if_pos he, if_pos (hsame.mp he)]
    · have he2 : ¬ (en2 ≠ 0) := fun hc => he (hsame.mpr hc)
      rw [if_neg he, if_neg he2]
  have hsecond := enable_same_flag h fopen2 (enable h fopen s handle en).self handle2 en2 hflag
  refine ⟨hsecond, ?_⟩
  intro hdis hen
  rw [hsecond]
  simpa using enable_writes_of_success h fopen s handle en hdis hen hok

/-- Instance of `enable_twice`: the generic adapter, switched off, is asked twice to
switch on (with 1, then with 5). -/
theorem enable_twice_witness :
    enable sampleHeaders noneOpen
        (enable sampleHeaders allOpen { genericAdapter with mEnabled := 0 } 0 1).self 0 5 =
      ⟨(enable sampleHeaders allOpen { genericAdapter with mEnabled := 0 } 0 1).self, 0, []⟩ :=
  (enable_twice sampleHeaders allOpen noneOpen { genericAdapter with mEnabled := 0 } 0 0 1 5
    (by decide) (by decide) (by decide)).1

/-! ## C4: `setDelay` -/

/-- C4, as stated, fails: for `ns = 2147483648000000` the millisecond count is
2147483648, which the `int delay_ms` does not hold; the string written is
`-2147483648`, not `2147483648`. -/
theorem setDelay_wraps_millisecond_count :
    Int.tdiv 2147483648000000 1000000 = 2147483648 ∧
      (setDelay sampleHeaders allOpen genericAdapter 0 2147483648000000).trace =
        [.sys_open (poll_delay_path sampleHeaders genericAdapter) true,
         .sys_write (poll_delay_path sampleHeaders genericAdapter)
           ("-2147483648".toList ++ [NUL]),
         .sys_close (poll_delay_path sampleHeaders genericAdapter)] ∧
      "-2147483648".toList ≠ (toString (Int.tdiv 2147483648000000 1000000)).toList := by
  decide

/-- C4, amended: for every interval `ns` whose millisecond count `ns / 1000000`
(quotient truncated toward zero, negative intervals included) fits the 32-bit `int`,
`setDelay` writes, when the polling delay control file opens, the decimal string of
that count followed by its terminator and returns 0; when the file does not open it
writes nothing and returns -1. -/
theorem setDelay_writes_milliseconds (h : Headers) (fopen : CString → Bool) (s : State)
    (handle ns : Int) (hlo : -2147483648 ≤ Int.tdiv ns 1000000)
    (hhi : Int.tdiv ns 1000000 ≤ 2147483647) :
    (fopen (poll_delay_path h s) = true →
      (setDelay h fopen s handle ns).ret = 0 ∧
      (setDelay h fopen s handle ns).trace =
        [.sys_open (poll_delay_path h s) true,
         .sys_write (poll_delay_path h s) ((toString (Int.tdiv ns 1000000)).toList ++ [NUL]),
         .sys_close (poll_delay_path h s)]) ∧
    (fopen (poll_delay_path h s) = false →
      (setDelay h fopen s handle ns).ret = -1 ∧
      (setDelay h fopen s handle ns).trace = [.sys_open (poll_delay_path h s) false]) := by
  constructor
  · intro ho
    constructor <;>
      simp [setDelay, ho, toInt32_of_range _ hlo hhi, snprintf_d_eq_toString]
  · intro ho
    constructor <;> simp [setDelay, ho]

/-- Instance of `setDelay_writes_milliseconds` at `ns = -1500000`, whose millisecond
count is -1. -/
theorem setDelay_writes_milliseconds_witness :
    (setDelay sampleHeaders allOpen genericAdapter 0 (-1500000)).ret = 0 ∧
      (setDelay sampleHeaders allOpen genericAdapter 0 (-1500000)).trace =
        [.sys_open (poll_delay_path sampleHeaders genericAdapter) true,
         .sys_write (poll_delay_path sampleHeaders genericAdapter)
           ((toString (Int.tdiv (-1500000) 1000000)).toList ++ [NUL]),
         .sys_close (poll_delay_path sampleHeaders genericAdapter)] :=
  (setDelay_writes_milliseconds sampleHeaders allOpen genericAdapter 0 (-1500000)
    (by decide) (by decide)).1 (by decide)

/-! ## C3: the control request of the no-argument constructor -/

/-- C3, as stated, fails: on a system with the generic device where every control file
opens, the adapter built by the no-argument constructor has `mEnabled = 1`, and the
one write of the constructor puts the bytes `1`, NUL into the enable file. -/
theorem construct_generic_is_enabled :
    (construct sampleHeaders genericDevice allOpen blankMemory).self.mEnabled = 1 ∧
      (construct sampleHeaders genericDevice allOpen blankMemory).trace =
        [.open_input "light".toList,
         .sys_open "/sys/class/input/event1/deviceenable".toList true,
         .sys_write "/sys/class/input/event1/deviceenable".toList ['1', NUL],
         .sys_close "/sys/class/input/event1/deviceenable".toList] := by
  decide

/-- C3, amended: when the device of some variant opens (descriptor above 0) and the
enable control file, whose path the constructor leaves in `input_sysfs_path`, opens,
the control request of the no-argument constructor is a request to switch on: its
`enable(0, 1)` returns 0, the adapter has `mEnabled = 1`, and after the probing calls
the constructor opens the enable file, writes the two bytes `1`, NUL and closes it. -/
theorem construct_requests_enable (h : Headers) (openInput : OpenInput)
    (fopen : CString → Bool) (mem : State)
    (hdev : ∃ name ∈ data_device_name, 0 < (openInput name).1)
    (hopen : fopen (construct h openInput fopen mem).self.input_sysfs_path = true) :
    (construct h openInput fopen mem).self.mEnabled = 1 ∧
      (construct h openInput fopen mem).ret = 0 ∧
      ∃ names : List CString,
        (construct h openInput fopen mem).trace =
          names.map Action.open_input ++
            [.sys_open (construct h openInput fopen mem).self.input_sysfs_path true,
             .sys_write (construct h openInput fopen mem).self.input_sysfs_path ['1', NUL],
             .sys_close (construct h openInput fopen mem).self.input_sysfs_path] := by
  obtain ⟨hdis, hidx, _, _, names, hc⟩ := construct_of_found h openInput fopen mem hdev
  obtain ⟨hon, hoff⟩ :=
    enable_on_from_disabled h fopen (construct_probed h openInput mem) 0 hdis hidx
  rw [hc] at hopen ⊢
  by_cases ho : fopen (enable_path h (construct_probed h openInput mem)) = true
  · rw [hon ho]
    exact ⟨rfl, rfl, names, rfl⟩
  · have ho2 : fopen (enable_path h (construct_probed h openInput mem)) = false := by
      simpa using ho
    rw [hoff ho2] at hopen
    exact absurd hopen ho

/-- Instance of `construct_requests_enable` on a system with the ADC variant. -/
theorem construct_requests_enable_witness :
    (construct sampleHeaders adcDevice allOpen blankMemory).self.mEnabled = 1 ∧
      (construct sampleHeaders adcDevice allOpen blankMemory).ret = 0 ∧
      ∃ names : List CString,
        (construct sampleHeaders adcDevice allOpen blankMemory).trace =
          names.map Action.open_input ++
            [.sys_open
               (construct sampleHeaders adcDevice allOpen blankMemory).self.input_sysfs_path true,
             .sys_write
               (construct sampleHeaders adcDevice allOpen blankMemory).self.input_sysfs_path
               ['1', NUL],
             .sys_close
               (construct sampleHeaders adcDevice allOpen blankMemory).self.input_sysfs_path] :=
  construct_requests_enable sampleHeaders adcDevice allOpen blankMemory
    ⟨"lightsensor-level".toList, by decide, by decide⟩ rfl

/-! ## Auxiliary facts: the expected records, one event at a time -/

theorem reading_after_cons (conv : Int → F32) (held : F32) (e : input_event)
    (l : List input_event) :
    reading_after conv held (e :: l) =
      reading_after conv (if isLightValue e then conv e.value else held) l := by
  unfold reading_after
  rw [List.reverse_cons, List.find?_append]
  cases hfind : l.reverse.find? isLightValue with
  | some x => simp
  | none =>
    by_cases hl : isLightValue e = true
    · simp [hl]
    · simp [hl]

theorem isLightValue_iff (e : input_event) :
    isLightValue e = true ↔ e.type = EV_ABS ∧ e.code = EVENT_TYPE_LIGHT := by
  simp [isLightValue]

theorem expected_measurement_cons (conv : Int → F32) (base : sensors_event_t)
    (e : input_event) (rest : List input_event) (p : Nat × input_event) :
    expected_measurement conv base (e :: rest) (Prod.map (· + 1) id p) =
      expected_measurement conv (step_base conv base e) rest p := by
  obtain ⟨i, x⟩ := p
  simp only [expected_measurement, Prod.map_apply, id_eq, List.take_succ_cons,
    reading_after_cons]
  unfold step_base
  by_cases h1 : e.type = EV_ABS
  · by_cases h2 : e.code = EVENT_TYPE_LIGHT
    · have hl : isLightValue e = true := (isLightValue_iff e).mpr ⟨h1, h2⟩
      rw [if_pos h1, if_pos h2, if_pos hl]
    · have hl : ¬ (isLightValue e = true) := fun hc => h2 ((isLightValue_iff e).mp hc).2
      rw [if_pos h1, if_neg h2, if_neg hl]
  · have hl : ¬ (isLightValue e = true) := fun hc => h1 ((isLightValue_iff e).mp hc).1
    by_cases h3 : e.type = EV_SYN
    · rw [if_neg h1, if_pos h3, if_neg hl]
    · rw [if_neg h1, if_neg h3, if_neg hl]

theorem syncs_cons (e : input_event) (rest : List input_event) :
    syncs (e :: rest) =
      (if isSync e then [((0 : Nat), e)] else []) ++
        (syncs rest).map (Prod.map (· + 1) id) := by
  unfold syncs
  rw [List.enum_cons', List.filter_cons]
  have hmap : List.filter (fun p : Nat × input_event => isSync p.2)
      (List.map (Prod.map (· + 1) id) rest.enum) =
      List.map (Prod.map (· + 1) id)
        (List.filter (fun p : Nat × input_event => isSync p.2) rest.enum) := by
    rw [List.filter_map]
    rfl
  rw [hmap]
  by_cases hs : isSync e = true
  · simp [hs]
  · simp [hs]

theorem expected_measurement_shift (conv : Int → F32) (base : sensors_event_t)
    (e : input_event) (rest : List input_event) :
    (expected_measurement conv base (e :: rest) ∘ Prod.map (fun x => x + 1) id) =
      expected_measurement conv (step_base conv base e) rest := by
  funext p
  exact expected_measurement_cons conv base e rest p

theorem expected_data_cons (conv : Int → F32) (base : sensors_event_t) (e : input_event)
    (rest : List input_event) (n : Nat) :
    expected_data conv base (e :: rest) n =
      if isSync e then
        match n with
        | 0 => []
        | m + 1 =>
          { base with timestamp := timevalToNano e.time } ::
            expected_data conv (step_base conv base e) rest m
      else expected_data conv (step_base conv base e) rest n := by
  unfold expected_data
  rw [syncs_cons]
  by_cases hs : isSync e = true
  · rw [if_pos hs, if_pos hs]
    cases n with
    | zero => simp
    | succ m =>
      simp only [List.singleton_append, List.take_succ_cons, List.map_cons, List.map_take,
        List.map_map, expected_measurement_shift]
      have hfirst : expected_measurement conv base (e :: rest) (0, e) =
          { base with timestamp := timevalToNano e.time } := by
        simp [expected_measurement, reading_after]
      rw [hfirst]
  · rw [if_neg hs, if_neg hs]
    simp only [List.nil_append, List.map_take, List.map_map, expected_measurement_shift]

theorem expected_data_zero (conv : Int → F32) (base : sensors_event_t)
    (evs : List input_event) : expected_data conv base evs 0 = [] := by
  simp [expected_data]

theorem expected_data_cons_sync (conv : Int → F32) (base : sensors_event_t)
    (e : input_event) (rest : List input_event) (m : Nat) (hs : isSync e = true) :
    expected_data conv base (e :: rest) (m + 1) =
      { base with timestamp := timevalToNano e.time } ::
        expected_data conv (step_base conv base e) rest m := by
  rw [expected_data_cons, if_pos hs]

theorem expected_data_cons_other (conv : Int → F32) (base : sensors_event_t)
    (e : input_event) (rest : List input_event) (n : Nat) (hs : ¬ (isSync e = true)) :
    expected_data conv base (e :: rest) n =
      expected_data conv (step_base conv base e) rest n := by
  rw [expected_data_cons, if_neg hs]

/-! ## Auxiliary facts: the decode loop -/

theorem convertEvent_congr (fp : FloatUnit) (s t : State)
    (hidx : t.sensor_index = s.sensor_index) : convertEvent fp t = convertEvent fp s := by
  funext v
  simp [convertEvent, hidx]

theorem syncCount_cons (e : input_event) (rest : List input_event) :
    syncCount (e :: rest) = syncCount rest + (if isSync e = true then 1 else 0) := by
  simp [syncCount, List.countP_cons]

theorem readEvents_loop_enabled (fp : FloatUnit) (evs : List input_event) :
    ∀ (s : State) (count : Int) (data : List sensors_event_t) (num : Int),
      s.mEnabled ≠ 0 → 0 ≤ count →
      (readEvents_loop fp evs s count data num).2.1 =
          data ++ expected_data (convertEvent fp s) s.mPendingEvent evs count.toNat ∧
        (readEvents_loop fp evs s count data num).2.2 =
          num + min count (syncCount evs : Int) := by
  induction evs with
  | nil =>
    intro s count data num _ hc
    simp [readEvents_loop, expected_data, syncs, syncCount, hc]
  | cons e rest ih =>
    intro s count data num hen hc
    by_cases h0 : count = 0
    · subst h0
      simp [readEvents_loop, expected_data_zero]
    · have hne : ¬ (EV_ABS = EV_SYN) := by decide
      by_cases h1 : e.type = EV_ABS
      · have hs : ¬ (isSync e = true) := by simp [isSync, h1, hne]
        rw [expected_data_cons_other _ _ _ _ _ hs, syncCount_cons, if_neg hs, Nat.add_zero]
        by_cases h2 : e.code = EVENT_TYPE_LIGHT
        · have hstep : step_base (convertEvent fp s) s.mPendingEvent e =
              { s.mPendingEvent with light := convertEvent fp s e.value } := by
            simp only [step_base, if_pos h1, if_pos h2]
          have hloop : readEvents_loop fp (e :: rest) s count data num =
              readEvents_loop fp rest
                { s with
                  mPendingEvent := { s.mPendingEvent with light := convertEvent fp s e.value }
                  mInputReader := s.mInputReader.next } count data num := by
            simp only [readEvents_loop, if_neg h0, if_pos h1, if_pos h2]
          rw [hloop, hstep]
          exact ih _ count data num hen hc
        · have hstep : step_base (convertEvent fp s) s.mPendingEvent e = s.mPendingEvent := by
            simp only [step_base, if_pos h1, if_neg h2]
          have hloop : readEvents_loop fp (e :: rest) s count data num =
              readEvents_loop fp rest { s with mInputReader := s.mInputReader.next }
                count data num := by
            simp only [readEvents_loop, if_neg h0, if_pos h1, if_neg h2]
          rw [hloop, hstep]
          exact ih _ count data num hen hc
      · by_cases h3 : e.type = EV_SYN
        · have hs : isSync e = true := by simp [isSync, h3]
          obtain ⟨m, hm⟩ : ∃ m : Nat, count = (m : Int) + 1 :=
            ⟨(count - 1).toNat, by omega⟩
          have hm1 : count.toNat = m + 1 := by omega
          have hm2 : (count - 1).toNat = m := by omega
          rw [hm1, expected_data_cons_sync _ _ _ _ _ hs, syncCount_cons, if_pos hs]
          have hstep : step_base (convertEvent fp s) s.mPendingEvent e =
              { s.mPendingEvent with timestamp := timevalToNano e.time } := by
            simp only [step_base, if_neg h1, if_pos h3]
          have hloop : readEvents_loop fp (e :: rest) s count data num =
              readEvents_loop fp rest
                { s with
                  mPendingEvent := { s.mPendingEvent with timestamp := timevalToNano e.time }
                  mInputReader := s.mInputReader.next } (count - 1)
                (data ++ [{ s.mPendingEvent with timestamp := timevalToNano e.time }])
                (num + 1) := by
            simp only [readEvents_loop, if_neg h0, if_neg h1, if_pos h3]
            rw [if_pos hen]
          rw [hloop, hstep]
          have := ih
            { s with
              mPendingEvent := { s.mPendingEvent with timestamp := timevalToNano e.time }
              mInputReader := s.mInputReader.next } (count - 1)
            (data ++ [{ s.mPendingEvent with timestamp := timevalToNano e.time }])
            (num + 1) hen (by omega)
          rw [hm2] at this
          refine ⟨?_, ?_⟩
          · rw [this.1, List.append_assoc]
            rfl
          · rw [this.2]
            push_cast
            omega
        · have hs : ¬ (isSync e = true) := by simp [isSync, h3]
          rw [expected_data_cons_other _ _ _ _ _ hs, syncCount_cons, if_neg hs, Nat.add_zero]
          have hstep : step_base (convertEvent fp s) s.mPendingEvent e = s.mPendingEvent := by
            simp only [step_base, if_neg h1, if_neg h3]
          have hloop : readEvents_loop fp (e :: rest) s count data num =
              readEvents_loop fp rest { s with mInputReader := s.mInputReader.next }
                count data num := by
            simp only [readEvents_loop, if_neg h0, if_neg h1, if_neg h3]
          rw [hloop, hstep]
          exact ih _ count data num hen hc

theorem readEvents_loop_disabled (fp : FloatUnit) (evs : List input_event) :
    ∀ (s : State) (count : Int) (data : List sensors_event_t) (num : Int),
      s.mEnabled = 0 → count ≠ 0 → s.mInputReader.events = evs →
      (readEvents_loop fp evs s count data num).2.1 = data ∧
        (readEvents_loop fp evs s count data num).2.2 = num ∧
        (readEvents_loop fp evs s count data num).1.mInputReader.events = [] := by
  induction evs with
  | nil =>
    intro s count data num _ _ hev
    simp [readEvents_loop, hev]
  | cons e rest ih =>
    intro s count data num hdis hc hev
    have hnext : s.mInputReader.next.events = rest := by
      simp [InputEventReader.next, hev]
    by_cases h1 : e.type = EV_ABS
    · by_cases h2 : e.code = EVENT_TYPE_LIGHT
      · simp only [readEvents_loop, if_neg hc, if_pos h1, if_pos h2]
        exact ih _ count data num hdis hc hnext
      · simp only [readEvents_loop, if_neg hc, if_pos h1, if_neg h2]
        exact ih _ count data num hdis hc hnext
    · by_cases h3 : e.type = EV_SYN
      · have hen : ¬ (s.mEnabled ≠ 0) := by simp [hdis]
        simp only [readEvents_loop, if_neg hc, if_neg h1, if_pos h3]
        rw [if_neg hen]
        exact ih _ count data num hdis hc hnext
      · simp only [readEvents_loop, if_neg hc, if_neg h1, if_neg h3]
        exact ih _ count data num hdis hc hnext

/-! ## Auxiliary facts: exactness of the conversion to binary32 -/

theorem bitLengthAux_zero (fuel : Nat) : bitLengthAux fuel 0 = 0 := by
  cases fuel <;> simp [bitLengthAux]

theorem bitLengthAux_spec (fuel : Nat) :
    ∀ n : Nat, 0 < n → n ≤ fuel →
      0 < bitLengthAux fuel n ∧ 2 ^ (bitLengthAux fuel n - 1) ≤ n ∧
        n < 2 ^ (bitLengthAux fuel n) := by
  induction fuel with
  | zero => intro n h1 h2; omega
  | succ k ih =>
    intro n hpos hle
    have hn0 : ¬ (n = 0) := by omega
    simp only [bitLengthAux, if_neg hn0]
    by_cases hhalf : n / 2 = 0
    · have hn1 : n = 1 := by omega
      subst hn1
      simp [bitLengthAux_zero]
    · obtain ⟨hb, hlo, hhi⟩ := ih (n / 2) (by omega) (by omega)
      refine ⟨by omega, ?_, ?_⟩
      · have hpow : 2 ^ (bitLengthAux k (n / 2) + 1 - 1) =
            2 * 2 ^ (bitLengthAux k (n / 2) - 1) := by
          have : bitLengthAux k (n / 2) + 1 - 1 = (bitLengthAux k (n / 2) - 1) + 1 := by omega
          rw [this, pow_succ]; ring
        rw [hpow]
        omega
      · rw [pow_succ]
        omega

theorem bitLength_spec (n : Nat) (hpos : 0 < n) :
    0 < bitLength n ∧ 2 ^ (bitLength n - 1) ≤ n ∧ n < 2 ^ (bitLength n) :=
  bitLengthAux_spec n n hpos (le_refl n)

theorem int_to_float_natAbs_exact (v : Int) (hne : v.natAbs ≠ 0)
    (hn : bitLength v.natAbs ≤ 24) :
    (int_to_float v).toRat? =
      some (if v < 0 then -((v.natAbs : ℕ) : ℚ) else ((v.natAbs : ℕ) : ℚ)) := by
  have hfloat : int_to_float v =
      ⟨decide (v < 0), 126 + bitLength v.natAbs,
        v.natAbs * 2 ^ (24 - bitLength v.natAbs) - 8388608⟩ := by
    unfold int_to_float
    dsimp only
    rw [if_neg hne, if_pos hn]
  obtain ⟨hb, hlo, _⟩ := bitLength_spec v.natAbs (Nat.pos_of_ne_zero hne)
  have h23 : 8388608 ≤ v.natAbs * 2 ^ (24 - bitLength v.natAbs) := by
    have h1 : (8388608 : Nat) = 2 ^ (bitLength v.natAbs - 1) * 2 ^ (24 - bitLength v.natAbs) := by
      rw [← pow_add]
      have : bitLength v.natAbs - 1 + (24 - bitLength v.natAbs) = 23 := by omega
      rw [this]
      norm_num
    rw [h1]
    exact Nat.mul_le_mul_right _ hlo
  have hsum : 8388608 + (v.natAbs * 2 ^ (24 - bitLength v.natAbs) - 8388608) =
      v.natAbs * 2 ^ (24 - bitLength v.natAbs) := by omega
  have hexp : ¬ (126 + bitLength v.natAbs ≥ 255) := by omega
  have hexp0 : ¬ (126 + bitLength v.natAbs = 0) := by omega
  have hpow : (2 : ℚ) ^ (24 - bitLength v.natAbs) * 2 ^ (126 + bitLength v.natAbs - 1) =
      2 ^ 149 := by
    have hsumexp : (24 - bitLength v.natAbs) + (126 + bitLength v.natAbs - 1) = 149 := by
      omega
    calc (2 : ℚ) ^ (24 - bitLength v.natAbs) * 2 ^ (126 + bitLength v.natAbs - 1)
        = 2 ^ ((24 - bitLength v.natAbs) + (126 + bitLength v.natAbs - 1)) :=
          (pow_add _ _ _).symm
      _ = 2 ^ 149 := by rw [hsumexp]
  have hval : ((v.natAbs * 2 ^ (24 - bitLength v.natAbs) : ℕ) : ℚ) *
      2 ^ (126 + bitLength v.natAbs - 1) / 2 ^ 149 = (v.natAbs : ℚ) := by
    push_cast
    rw [mul_assoc, hpow]
    field_simp
  rw [hfloat]
  unfold F32.toRat?
  dsimp only
  rw [if_neg hexp, if_neg hexp0, hsum, hval]
  by_cases hv : v < 0
  · simp [hv]
  · simp [hv]

theorem int_to_float_exact (v : Int) (hv : v.natAbs ≤ 16777216) :
    (int_to_float v).toRat? = some (v : ℚ) := by
  by_cases h0 : v.natAbs = 0
  · have hz : v = 0 := Int.natAbs_eq_zero.mp h0
    subst hz
    simp [int_to_float, F32.toRat?, F32.zero]
  · obtain ⟨hb, hlo, hhi⟩ := bitLength_spec v.natAbs (Nat.pos_of_ne_zero h0)
    by_cases hn : bitLength v.natAbs ≤ 24
    · rw [int_to_float_natAbs_exact v h0 hn]
      congr 1
      by_cases hneg : v < 0
      · rw [if_pos hneg]
        have hv2 : v = -((v.natAbs : ℕ) : Int) := by omega
        have hq := congrArg (fun z : Int => (z : ℚ)) hv2
        simp only [Int.cast_neg, Int.cast_natCast] at hq
        exact hq.symm
      · rw [if_neg hneg]
        have hv2 : v = ((v.natAbs : ℕ) : Int) := by omega
        have hq := congrArg (fun z : Int => (z : ℚ)) hv2
        simp only [Int.cast_natCast] at hq
        exact hq.symm
    · have hge : 16777216 ≤ v.natAbs := by
        have h24 : 2 ^ 24 ≤ 2 ^ (bitLength v.natAbs - 1) :=
          Nat.pow_le_pow_right (by decide) (by omega)
        have : (2 : Nat) ^ 24 = 16777216 := by norm_num
        omega
      have habs : v.natAbs = 16777216 := by omega
      have hcases : v = 16777216 ∨ v = -16777216 := by omega
      rcases hcases with h | h
      · subst h
        have : int_to_float 16777216 = ⟨false, 151, 0⟩ := by decide
        rw [this]
        norm_num [F32.toRat?]
      · subst h
        have : int_to_float (-16777216) = ⟨true, 151, 0⟩ := by decide
        rw [this]
        norm_num [F32.toRat?]

/-! ## Auxiliary facts: the fill path of `readEvents` -/

theorem readEvents_fill_batch (fp : FloatUnit) (s : State) (count : Int)
    (offered : List input_event) :
    readEvents_fill fp (.batch offered) s count =
      ⟨(readEvents_loop fp (buffered_after_fill s offered)
          { s with mInputReader := (s.mInputReader.fill (.batch offered)).1 } count [] 0).1,
       (readEvents_loop fp (buffered_after_fill s offered)
          { s with mInputReader := (s.mInputReader.fill (.batch offered)).1 } count [] 0).2.2,
       (readEvents_loop fp (buffered_after_fill s offered)
          { s with mInputReader := (s.mInputReader.fill (.batch offered)).1 } count [] 0).2.1,
       [.reader_fill s.data_fd]⟩ := by
  have hn : ¬ ((s.mInputReader.fill (.batch offered)).2 < 0) := by
    simp [InputEventReader.fill]
  simp only [readEvents_fill, if_neg hn, buffered_after_fill]

theorem readEvents_no_pending (fp : FloatUnit) (now : Int) (dev : FillOutcome) (s : State)
    (count : Int) (hp : s.mHasPendingEvent = false) (hc : 1 ≤ count) :
    readEvents fp now dev s count = readEvents_fill fp dev s count := by
  have h1 : ¬ (count < 1) := by omega
  simp [readEvents, h1, hp]

/-! ## C6: decoding a batch -/

/-- C6, as stated, fails: the enabled adapter `leftoverAdapter` has no pending
measurement and still holds the second sample of an earlier batch; a fill that
delivers the empty batch is successful, and `readEvents(data, 1)` then returns 1,
whereas the delivered batch contains no `EV_SYN` record, so that `min(count, syncs in
the batch)` is 0. -/
theorem readEvents_counts_leftover_sync :
    leftoverAdapter.mHasPendingEvent = false ∧ leftoverAdapter.mEnabled = 1 ∧
      leftoverAdapter.mInputReader.events =
        [⟨⟨11, 20⟩, EV_ABS, ABS_MISC, 200⟩, ⟨⟨11, 30⟩, EV_SYN, 0, 0⟩] ∧
      (readEvents idleFloatUnit 0 (.batch []) leftoverAdapter 1).ret = 1 ∧
      (readEvents idleFloatUnit 0 (.batch []) leftoverAdapter 1).ret ≠
        min 1 (syncCount ([] : List input_event) : Int) := by
  decide

/-- C6, amended: with no pending measurement, `count >= 1` and a successful fill, let
`evs` be the records the reader holds after the fill: those left unconsumed by earlier
reads, followed by the batch the fill delivered (with a reader drained before the call,
exactly the delivered batch). When the adapter is enabled, `readEvents` returns
`min(count, number of EV_SYN records in evs)` and the k-th record it writes is the
pending measurement with, as reading, `convertEvent` of the most recent
`EV_ABS`/`ABS_MISC` value before the k-th sync of `evs` (the reading held before the call
if there is none) and, as timestamp, the time of the k-th sync in nanoseconds. When it
is disabled, `readEvents` returns 0, writes nothing and leaves the reader empty. -/
theorem readEvents_decodes_batch (fp : FloatUnit) (now : Int) (s : State) (count : Int)
    (offered : List input_event) (hp : s.mHasPendingEvent = false) (hc : 1 ≤ count) :
    (s.mEnabled ≠ 0 →
      (readEvents fp now (.batch offered) s count).ret =
          min count (syncCount (buffered_after_fill s offered) : Int) ∧
        (readEvents fp now (.batch offered) s count).data =
          expected_data (convertEvent fp s) s.mPendingEvent (buffered_after_fill s offered)
            count.toNat) ∧
    (s.mEnabled = 0 →
      (readEvents fp now (.batch offered) s count).ret = 0 ∧
        (readEvents fp now (.batch offered) s count).data = [] ∧
        (readEvents fp now (.batch offered) s count).self.mInputReader.events = []) ∧
    (s.mInputReader.events = [] →
      buffered_after_fill s offered = offered.take s.mInputReader.capacity) := by
  rw [readEvents_no_pending fp now _ s count hp hc, readEvents_fill_batch]
  refine ⟨?_, ?_, ?_⟩
  · intro hen
    have hcv : convertEvent fp
        { s with mInputReader := (s.mInputReader.fill (.batch offered)).1 } =
        convertEvent fp s := convertEvent_congr fp s _ rfl
    have := readEvents_loop_enabled fp (buffered_after_fill s offered)
      { s with mInputReader := (s.mInputReader.fill (.batch offered)).1 } count [] 0 hen
      (by omega)
    rw [hcv, List.nil_append, Int.zero_add] at this
    exact ⟨this.2, this.1⟩
  · intro hdis
    have := readEvents_loop_disabled fp (buffered_after_fill s offered)
      { s with mInputReader := (s.mInputReader.fill (.batch offered)).1 } count [] 0 hdis
      (by omega) rfl
    exact ⟨this.2.1, this.1, this.2.2⟩
  · intro hempty
    simp [buffered_after_fill, InputEventReader.fill, hempty]

/-- Instance of `readEvents_decodes_batch` at the batch [light value 100, sync] and
`count = 1`: the enabled generic adapter returns 1 and writes one measurement whose
reading is `convertEvent(100)` and whose timestamp is that of the sync record; the
same adapter, disabled, returns 0, writes nothing and has consumed both records. -/
theorem readEvents_decodes_batch_witness :
    ((readEvents idleFloatUnit 0 (.batch sampleBatch) genericAdapter 1).ret =
        min 1 (syncCount (buffered_after_fill genericAdapter sampleBatch) : Int) ∧
      (readEvents idleFloatUnit 0 (.batch sampleBatch) genericAdapter 1).data =
        expected_data (convertEvent idleFloatUnit genericAdapter) genericAdapter.mPendingEvent
          (buffered_after_fill genericAdapter sampleBatch) (1 : Int).toNat) ∧
    ((readEvents idleFloatUnit 0 (.batch sampleBatch)
          { genericAdapter with mEnabled := 0 } 1).ret = 0 ∧
      (readEvents idleFloatUnit 0 (.batch sampleBatch)
          { genericAdapter with mEnabled := 0 } 1).data = [] ∧
      (readEvents idleFloatUnit 0 (.batch sampleBatch)
          { genericAdapter with mEnabled := 0 } 1).self.mInputReader.events = []) ∧
    (readEvents idleFloatUnit 0 (.batch sampleBatch) genericAdapter 1).ret = 1 ∧
    (readEvents idleFloatUnit 0 (.batch sampleBatch) genericAdapter 1).data =
      [{ genericAdapter.mPendingEvent with
          light := convertEvent idleFloatUnit genericAdapter 100
          timestamp := 10000030000 }] :=
  ⟨(readEvents_decodes_batch idleFloatUnit 0 genericAdapter 1 sampleBatch (by decide)
      (by decide)).1 (by decide),
   (readEvents_decodes_batch idleFloatUnit 0 { genericAdapter with mEnabled := 0 } 1
      sampleBatch (by decide) (by decide)).2.1 (by decide),
   by decide, by decide⟩

/-! ## C8: conversion for variants that report lux -/

/-- C8: for a resolved variant whose report type is `TYPE_LUX` (`GENERIC_LS`, `CM36283_LS`,
`STK3x1x_LS`), `convertEvent(value)` is the conversion `(float) value` and nothing else:
it denotes exactly `value` whenever `|value| <= 2^24`, in particular `convertEvent(500)`
is exactly 500.0 (bits 0x43FA0000), and it is the same for every float unit and every
object state with the same `sensor_index`. -/
theorem convertEvent_lux (fp : FloatUnit) (s : State) (value : Int)
    (hvar : s.sensor_index = GENERIC_LS ∨ s.sensor_index = CM36283_LS ∨
      s.sensor_index = STK3x1x_LS) :
    convertEvent fp s value = int_to_float value ∧
      (value.natAbs ≤ 16777216 → (convertEvent fp s value).toRat? = some (value : ℚ)) ∧
      convertEvent fp s 500 = ⟨false, 135, 7995392⟩ ∧
      (convertEvent fp s 500).toRat? = some 500 ∧
      (∀ (fp2 : FloatUnit) (s2 : State), s2.sensor_index = s.sensor_index →
        convertEvent fp2 s2 value = convertEvent fp s value) := by
  have hconv : ∀ (fp1 : FloatUnit) (s1 : State) (v : Int),
      s1.sensor_index = s.sensor_index → convertEvent fp1 s1 v = int_to_float v := by
    intro fp1 s1 v hidx
    unfold convertEvent
    rw [hidx]
    rcases hvar with h | h | h <;> rw [h] <;> rfl
  refine ⟨hconv fp s value rfl, ?_, ?_, ?_, ?_⟩
  · intro hsmall
    rw [hconv fp s value rfl]
    exact int_to_float_exact value hsmall
  · rw [hconv fp s 500 rfl]
    decide
  · rw [hconv fp s 500 rfl]
    have := int_to_float_exact 500 (by decide)
    simpa using this
  · intro fp2 s2 hidx
    rw [hconv fp2 s2 value hidx, hconv fp s value rfl]

/-- Instance of `convertEvent_lux` at the generic adapter and the raw value 500. -/
theorem convertEvent_lux_witness :
    convertEvent idleFloatUnit genericAdapter 500 = int_to_float 500 ∧
      convertEvent idleFloatUnit genericAdapter 500 = ⟨false, 135, 7995392⟩ ∧
      (convertEvent idleFloatUnit genericAdapter 500).toRat? = some 500 :=
  ⟨(convertEvent_lux idleFloatUnit genericAdapter 500 (Or.inl (by decide))).1,
   (convertEvent_lux idleFloatUnit genericAdapter 500 (Or.inl (by decide))).2.2.1,
   (convertEvent_lux idleFloatUnit genericAdapter 500 (Or.inl (by decide))).2.2.2.1⟩

/-! ## Auxiliary facts: the real-valued ADC formula at 4095 -/

theorem enable_keeps_pending (h : Headers) (fopen : CString → Bool) (s : State)
    (handle en : Int) :
    (enable h fopen s handle en).self.mHasPendingEvent = s.mHasPendingEvent := by
  unfold enable
  dsimp only
  split_ifs <;> rfl

theorem setDelay_keeps_pending (h : Headers) (fopen : CString → Bool) (s : State)
    (handle ns : Int) :
    (setDelay h fopen s handle ns).self.mHasPendingEvent = s.mHasPendingEvent := by
  unfold setDelay
  dsimp only
  split <;> rfl

theorem readEvents_loop_keeps_pending (fp : FloatUnit) (evs : List input_event) :
    ∀ (s : State) (count : Int) (data : List sensors_event_t) (num : Int),
      (readEvents_loop fp evs s count data num).1.mHasPendingEvent = s.mHasPendingEvent := by
  induction evs with
  | nil => intro s count data num; rfl
  | cons e rest ih =>
    intro s count data num
    simp only [readEvents_loop]
    split
    · rfl
    · split
      · split
        · rw [ih]
        · rw [ih]
      · split
        · split
          · rw [ih]
          · rw [ih]
        · rw [ih]

theorem readEvents_keeps_not_pending (fp : FloatUnit) (now : Int) (dev : FillOutcome)
    (s : State) (count : Int) (hp : s.mHasPendingEvent = false) :
    (readEvents fp now dev s count).self.mHasPendingEvent = false := by
  by_cases hc : count < 1
  · simp only [readEvents, if_pos hc]
    exact hp
  · rw [readEvents_no_pending fp now dev s count hp (by omega)]
    unfold readEvents_fill
    dsimp only
    split
    · exact hp
    · rw [readEvents_loop_keeps_pending]
      exact hp

theorem construct_not_pending (h : Headers) (openInput : OpenInput) (fopen : CString → Bool)
    (mem : State) : (construct h openInput fopen mem).self.mHasPendingEvent = false := by
  have hk := (probe_loop_keeps openInput SUPPORTED_LSENSOR_COUNT.toNat 0
    (init_members h mem (-1))).2
  unfold construct
  dsimp only
  split
  · rw [enable_keeps_pending]
    exact hk
  · exact hk

theorem construct_named_not_pending (h : Headers) (fopen : CString → Bool) (mem : State)
    (name : CString) : (construct_named h fopen mem name).self.mHasPendingEvent = false := by
  unfold construct_named
  dsimp only
  split
  · rw [enable_keeps_pending]
    rfl
  · rfl

/-! ## C10: the pending flag is never set -/

/-- C10: in every state reachable from either constructor by calls of `enable`,
`setDelay`, `readEvents` and `convertEvent`, `mHasPendingEvent` is false, so
`hasPendingEvents()` returns false, and every `readEvents` call that returns a count
(a non-negative value) is the fill-and-decode path: it equals `readEvents_fill` and
its one outside call is the fill of the reader. -/
theorem pending_flag_never_set (h : Headers) (fp : FloatUnit) (s : State)
    (hreach : Reachable h fp s) :
    s.mHasPendingEvent = false ∧ hasPendingEvents s = false ∧
      ∀ (now : Int) (dev : FillOutcome) (count : Int),
        0 ≤ (readEvents fp now dev s count).ret →
          readEvents fp now dev s count = readEvents_fill fp dev s count ∧
            (readEvents fp now dev s count).trace = [.reader_fill s.data_fd] := by
  have hflag : s.mHasPendingEvent = false := by
    induction hreach with
    | construct openInput fopen mem => exact construct_not_pending h openInput fopen mem
    | construct_named fopen mem name => exact construct_named_not_pending h fopen mem name
    | call s c _ ih =>
      cases c with
      | enable fopen handle en =>
        show (enable h fopen s handle en).self.mHasPendingEvent = false
        rw [enable_keeps_pending]; exact ih
      | setDelay fopen handle ns =>
        show (setDelay h fopen s handle ns).self.mHasPendingEvent = false
        rw [setDelay_keeps_pending]; exact ih
      | readEvents now dev count =>
        exact readEvents_keeps_not_pending fp now dev s count ih
      | convertEvent value => exact ih
  refine ⟨hflag, hflag, ?_⟩
  intro now dev count hret
  have hc : 1 ≤ count := by
    by_contra hlt
    have hlt2 : count < 1 := by omega
    simp only [readEvents, if_pos hlt2] at hret
    revert hret
    decide
  rw [readEvents_no_pending fp now dev s count hflag hc]
  refine ⟨rfl, ?_⟩
  unfold readEvents_fill
  dsimp only
  split <;> rfl

/-- Instance of `pending_flag_never_set` at the state reached by constructing on the
generic device, setting a delay, reading a batch and switching off. -/
theorem pending_flag_never_set_witness :
    ((Call.enable allOpen 0 0).run sampleHeaders idleFloatUnit
      ((Call.readEvents 5 (.batch sampleBatch) 1).run sampleHeaders idleFloatUnit
        ((Call.setDelay allOpen 0 66000000).run sampleHeaders idleFloatUnit
          (construct sampleHeaders genericDevice allOpen blankMemory).self))).mHasPendingEvent
      = false :=
  (pending_flag_never_set sampleHeaders idleFloatUnit _
    (Reachable.call _ (Call.enable allOpen 0 0)
      (Reachable.call _ (Call.readEvents 5 (.batch sampleBatch) 1)
        (Reachable.call _ (Call.setDelay allOpen 0 66000000)
          (Reachable.construct genericDevice allOpen blankMemory))))).1

end LightSensor
